import Mathlib

/-!
# Address derivation of libwally-core (`src/address.c`)

A shallow embedding of `wally_bip32_key_to_address` and
`wally_bip32_key_to_addr_segwit`, followed by the properties of the
derivation glue that are established about them.

The two functions call `wally_hash160`, `wally_base58_from_bytes`,
`wally_addr_segwit_from_bytes` and `wally_clear`, which live in other
translation units.  The first three are taken as parameters (`Collaborators`),
so every theorem holds for whatever they compute.
-/

namespace Wally

/-! ## Data model -/

/-- An `unsigned char`. -/
abbrev Byte := Fin 256

/-- A `uint32_t`. -/
abbrev uint32_t := Fin 4294967296

/-- An array `unsigned char [n]`: exactly `n` bytes. -/
abbrev Buf (n : Nat) := { l : List Byte // l.length = n }

/-- A `char **` destination: `none` is the null pointer, `some s` a valid destination
whose target `*output` currently holds `s` (`none` for `NULL`, `some str` for a string). -/
abbrev OutPtr := Option (Option String)

/-- Modelled from the spec: `WALLY_OK` is declared in `wally_core.h`, which is not among the
sources; it is the success code, 0 in libwally. -/
def WALLY_OK : Int := 0

/-- Modelled from the spec: `WALLY_EINVAL` (the `InvalidArgument` kind) is declared in
`wally_core.h`, which is not among the sources; its value in libwally is -2. -/
def WALLY_EINVAL : Int := -2

/-- Modelled from the spec: `HASH160_LEN` is declared in `wally_crypto.h`, which is not among
the sources; a hash160 is 20 bytes. -/
abbrev HASH160_LEN : Nat := 20

/-- Modelled from the spec: `OP_0` is declared in `wally_script.h`, which is not among the
sources; it is the opcode byte 0x00. -/
def OP_0 : Byte := 0x00

/-- Modelled from the spec: `BASE58_FLAG_CHECKSUM` is declared in `base58.h`, which is not
among the sources; it is the flag asking for the checksummed form, 0x1 in libwally. -/
def BASE58_FLAG_CHECKSUM : uint32_t := 0x1

/-- `WALLY_ADDRESS_TYPE_P2PKH` of `wally_address.h`. -/
def WALLY_ADDRESS_TYPE_P2PKH : uint32_t := 0x01
/-- `WALLY_ADDRESS_TYPE_P2SH_P2WPKH` of `wally_address.h`. -/
def WALLY_ADDRESS_TYPE_P2SH_P2WPKH : uint32_t := 0x02
/-- `WALLY_ADDRESS_TYPE_P2WPKH` of `wally_address.h`. -/
def WALLY_ADDRESS_TYPE_P2WPKH : uint32_t := 0x04

/-- `WALLY_ADDRESS_VERSION_P2PKH_MAINNET` of `wally_address.h`. -/
def WALLY_ADDRESS_VERSION_P2PKH_MAINNET : uint32_t := 0x00
/-- `WALLY_ADDRESS_VERSION_P2PKH_TESTNET` of `wally_address.h`. -/
def WALLY_ADDRESS_VERSION_P2PKH_TESTNET : uint32_t := 0x6F
/-- `WALLY_ADDRESS_VERSION_P2SH_MAINNET` of `wally_address.h`. -/
def WALLY_ADDRESS_VERSION_P2SH_MAINNET : uint32_t := 0x05
/-- `WALLY_ADDRESS_VERSION_P2SH_TESTNET` of `wally_address.h`. -/
def WALLY_ADDRESS_VERSION_P2SH_TESTNET : uint32_t := 0xC4

/-- Modelled from the spec: `struct ext_key` is declared in `wally_bip32.h`, which is not among
the sources (`wally_address.h` only forward-declares it).  The spec describes it as a record
supplying a 33-byte compressed public key next to other fields; the other fields are those of
libwally's declaration. -/
structure ext_key where
  chain_code : Buf 32
  parent160 : Buf 20
  depth : Fin 256
  pad1 : Buf 10
  priv_key : Buf 33
  child_num : uint32_t
  hash160 : Buf 20
  version : uint32_t
  pad2 : Buf 3
  pub_key : Buf 33
deriving DecidableEq

/-- One call made to another translation unit, with the arguments passed by value. -/
inductive Call where
  | hash160 (bytes : List Byte) (bytes_len : Nat) (len : Nat)
  | base58_from_bytes (bytes : List Byte) (bytes_len : Nat) (flags : uint32_t)
  | addr_segwit_from_bytes (bytes : List Byte) (bytes_len : Nat) (addr_family : String)
      (flags : uint32_t)
  | clear (len : Nat)
deriving DecidableEq

/-- The functions of other translation units that `address.c` calls.

* `wally_hash160 bytes bytes_len len`: `some d` when the call returns `WALLY_OK`, having stored
  the `len = HASH160_LEN` bytes `d` through `bytes_out`; `none` when it returns any other code
  (the callers only compare the code with `WALLY_OK`), the destination left as it was.
* `wally_base58_from_bytes bytes bytes_len flags output`: the returned code, and what `*output`
  holds after the call.
* `wally_addr_segwit_from_bytes bytes bytes_len addr_family flags output`: the returned code,
  and what `*output` holds after the call (without meaning when `output` is null). -/
structure Collaborators where
  wally_hash160 : List Byte → Nat → Nat → Option (Buf HASH160_LEN)
  wally_base58_from_bytes : List Byte → Nat → uint32_t → OutPtr → Int × Option String
  wally_addr_segwit_from_bytes :
    List Byte → Nat → String → uint32_t → OutPtr → Int × Option String

/-! ## Machine-level helpers -/

/-- The `~` of C on a `uint32_t` operand (after the usual conversion of `~0xff`). -/
def uint32_t.not (a : uint32_t) : uint32_t := ⟨4294967295 - a.val, by omega⟩

/-- Conversion of an integer value to `unsigned char`. -/
def Byte.ofNat (n : Nat) : Byte := ⟨n % 256, Nat.mod_lt _ (by decide)⟩

/-- The store `buf[i] = b`. -/
def poke (buf : List Byte) (i : Nat) (b : Byte) : List Byte := buf.set i b

/-- The bytes of `buf` after a callee stored `src` at `buf + off`. -/
def blit (buf : List Byte) (off : Nat) (src : List Byte) : List Byte :=
  buf.take off ++ src ++ buf.drop (off + src.length)

/-- Modelled from the spec: `wally_clear` is defined in `internal.c`, which is not among the
sources; the spec has intermediate buffers explicitly cleared, that is every byte of the buffer
set to zero. -/
def wally_clear (buf : List Byte) : List Byte := buf.map (fun _ => 0)

/-! ## `wally_bip32_key_to_address` -/

/-- What the automatic arrays of `wally_bip32_key_to_address` happen to hold before they are
written: they are declared without an initialiser. -/
structure AddressLocals where
  address : Buf (HASH160_LEN + 1)
  redeem_script : Buf (HASH160_LEN + 2)

/-- The observable state when `wally_bip32_key_to_address` returns. -/
structure AddressReturn where
  /-- the returned code -/
  ret : Int
  /-- the destination `output` with the value `*output` holds at return -/
  output : OutPtr
  /-- the bytes of the local array `address` at return -/
  address : List Byte
  /-- the bytes of the local array `redeem_script` at return, `none` when its block was
  not entered -/
  redeem_script : Option (List Byte)
  /-- the calls made to other translation units, in order -/
  calls : List Call
deriving DecidableEq

/-- The function `wally_bip32_key_to_address` of `address.c`. -/
def wally_bip32_key_to_address (env : Collaborators) (junk : AddressLocals)
    (hdkey : Option ext_key) (flags version : uint32_t) (output : OutPtr) : AddressReturn :=
  let address : List Byte := junk.address.val
  -- if (output) *output = NULL;
  let output : OutPtr := output.map (fun _ => none)
  -- if (!hdkey || (version & ~0xff) || (flags & ~0xff) || !output) return WALLY_EINVAL;
  match hdkey with
  | none => ⟨WALLY_EINVAL, output, address, none, []⟩
  | some key =>
    if version &&& uint32_t.not 0xff ≠ 0 ∨ flags &&& uint32_t.not 0xff ≠ 0 ∨ output = none then
      ⟨WALLY_EINVAL, output, address, none, []⟩
    else if flags &&& (WALLY_ADDRESS_TYPE_P2PKH ||| WALLY_ADDRESS_TYPE_P2SH_P2WPKH) = 0 then
      ⟨WALLY_EINVAL, output, address, none, []⟩
    else if (flags &&& WALLY_ADDRESS_TYPE_P2PKH ≠ 0 ∧
              version = WALLY_ADDRESS_VERSION_P2SH_MAINNET) ∨
            (flags &&& WALLY_ADDRESS_TYPE_P2SH_P2WPKH ≠ 0 ∧
              version = WALLY_ADDRESS_VERSION_P2PKH_MAINNET) ∨
            (flags &&& WALLY_ADDRESS_TYPE_P2PKH ≠ 0 ∧
              version = WALLY_ADDRESS_VERSION_P2SH_TESTNET) ∨
            (flags &&& WALLY_ADDRESS_TYPE_P2SH_P2WPKH ≠ 0 ∧
              version = WALLY_ADDRESS_VERSION_P2PKH_TESTNET) then
      ⟨WALLY_EINVAL, output, address, none, []⟩
    else if flags = WALLY_ADDRESS_TYPE_P2PKH then
      -- address[0] = (unsigned char) version & 0xff;
      let address := poke address 0 (Byte.ofNat ((version.val % 256) &&& 0xff))
      let call₁ := Call.hash160 key.pub_key.val 33 HASH160_LEN
      match env.wally_hash160 key.pub_key.val 33 HASH160_LEN with
      | none => ⟨WALLY_EINVAL, output, address, none, [call₁]⟩
      | some d =>
        let address := blit address 1 d.val
        let call₂ := Call.base58_from_bytes address (HASH160_LEN + 1) BASE58_FLAG_CHECKSUM
        let r := env.wally_base58_from_bytes address (HASH160_LEN + 1) BASE58_FLAG_CHECKSUM
          output
        ⟨r.1, output.map (fun _ => r.2), wally_clear address, none,
          [call₁, call₂, Call.clear (HASH160_LEN + 1)]⟩
    else
      let redeem_script : List Byte := junk.redeem_script.val
      let redeem_script := poke redeem_script 0 OP_0
      let redeem_script := poke redeem_script 1 (Byte.ofNat HASH160_LEN)
      let call₁ := Call.hash160 key.pub_key.val 33 HASH160_LEN
      match env.wally_hash160 key.pub_key.val 33 HASH160_LEN with
      | none => ⟨WALLY_EINVAL, output, address, some redeem_script, [call₁]⟩
      | some d =>
        let redeem_script := blit redeem_script 2 d.val
        -- address[0] = (unsigned char) version & 0xff;
        let address := poke address 0 (Byte.ofNat ((version.val % 256) &&& 0xff))
        let call₂ := Call.hash160 redeem_script (HASH160_LEN + 2) HASH160_LEN
        match env.wally_hash160 redeem_script (HASH160_LEN + 2) HASH160_LEN with
        | none => ⟨WALLY_EINVAL, output, address, some redeem_script, [call₁, call₂]⟩
        | some d₂ =>
          let address := blit address 1 d₂.val
          let call₃ := Call.base58_from_bytes address (HASH160_LEN + 1) BASE58_FLAG_CHECKSUM
          let r := env.wally_base58_from_bytes address (HASH160_LEN + 1) BASE58_FLAG_CHECKSUM
            output
          ⟨r.1, output.map (fun _ => r.2), wally_clear address, some redeem_script,
            [call₁, call₂, call₃, Call.clear (HASH160_LEN + 1)]⟩

/-! ## `wally_bip32_key_to_addr_segwit` -/

/-- A run that does not return: the C program has no defined behaviour from there on. -/
inductive Fault where
  /-- a member of `*hdkey` is accessed through a null `hdkey` -/
  | null_dereference
deriving DecidableEq

/-- The observable state when `wally_bip32_key_to_addr_segwit` returns. -/
structure SegwitReturn where
  /-- the returned code -/
  ret : Int
  /-- the destination `output` with the value `*output` holds at return -/
  output : OutPtr
  /-- the bytes of the local array `witness_program_bytes` at return -/
  witness_program_bytes : List Byte
  /-- the calls made to other translation units, in order -/
  calls : List Call
deriving DecidableEq

/-- The function `wally_bip32_key_to_addr_segwit` of `address.c`.  `junk` is what the automatic
array `witness_program_bytes` happens to hold before it is written. -/
def wally_bip32_key_to_addr_segwit (env : Collaborators) (junk : Buf (HASH160_LEN + 2))
    (hdkey : Option ext_key) (addr_family : String) (flags : uint32_t) (output : OutPtr) :
    Except Fault SegwitReturn :=
  let witness_program_bytes : List Byte := junk.val
  let witness_program_bytes := poke witness_program_bytes 0 OP_0
  let witness_program_bytes := poke witness_program_bytes 1 (Byte.ofNat HASH160_LEN)
  -- hdkey->pub_key: there is no null check before the member access
  match hdkey with
  | none => .error Fault.null_dereference
  | some key =>
    let call₁ := Call.hash160 key.pub_key.val 33 HASH160_LEN
    match env.wally_hash160 key.pub_key.val 33 HASH160_LEN with
    | none => .ok ⟨WALLY_EINVAL, output, witness_program_bytes, [call₁]⟩
    | some d =>
      let witness_program_bytes := blit witness_program_bytes 2 d.val
      let call₂ := Call.addr_segwit_from_bytes witness_program_bytes (HASH160_LEN + 2)
        addr_family flags
      let r := env.wally_addr_segwit_from_bytes witness_program_bytes (HASH160_LEN + 2)
        addr_family flags output
      .ok ⟨r.1, output.map (fun _ => r.2), witness_program_bytes, [call₁, call₂]⟩


/-! ## Concrete inputs

Stand-ins for the collaborators and sample arguments, on which the embedded functions can be
evaluated. -/

/-- The array of `n` zero bytes. -/
def zeros (n : Nat) : Buf n := ⟨List.replicate n 0, by simp⟩

/-- A stand-in for `wally_hash160`: 20 copies of the sum of the input bytes modulo 256. -/
def sum_hash160 (bytes : List Byte) (_bytes_len _len : Nat) : Option (Buf HASH160_LEN) :=
  some ⟨List.replicate HASH160_LEN (bytes.foldl (fun a b => a + b) 0), by simp⟩

/-- The two lower-case hexadecimal digits of a byte. -/
def hex_digits (b : Byte) : List Char :=
  [(Nat.toDigits 16 (b.val / 16)).headD '0', (Nat.toDigits 16 (b.val % 16)).headD '0']

/-- A stand-in for an encoder that always succeeds: the bytes in hexadecimal. -/
def hex_encode (bytes : List Byte) : Int × Option String :=
  (WALLY_OK, some (String.mk (bytes.flatMap hex_digits)))

/-- Collaborators that always succeed. -/
def sampleEnv : Collaborators where
  wally_hash160 := sum_hash160
  wally_base58_from_bytes := fun bytes _ _ _ => hex_encode bytes
  wally_addr_segwit_from_bytes := fun bytes _ _ _ _ => hex_encode bytes

/-- Collaborators whose hash160 always fails. -/
def hashFailEnv : Collaborators where
  wally_hash160 := fun _ _ _ => none
  wally_base58_from_bytes := fun bytes _ _ _ => hex_encode bytes
  wally_addr_segwit_from_bytes := fun bytes _ _ _ _ => hex_encode bytes

/-- Collaborators whose encoders always fail with -3 (out of memory), leaving `*output` null. -/
def encodeFailEnv : Collaborators where
  wally_hash160 := sum_hash160
  wally_base58_from_bytes := fun _ _ _ _ => (-3, none)
  wally_addr_segwit_from_bytes := fun _ _ _ _ _ => (-3, none)

/-- Zero-filled stack contents for `wally_bip32_key_to_address`. -/
def sampleLocals : AddressLocals := ⟨zeros _, zeros _⟩

/-- An extended key: public key 0x02 followed by 32 bytes 0x11, every other field zero. -/
def sampleKey : ext_key where
  chain_code := zeros _
  parent160 := zeros _
  depth := 0
  pad1 := zeros _
  priv_key := zeros _
  child_num := 0
  hash160 := zeros _
  version := 0
  pad2 := zeros _
  pub_key := ⟨0x02 :: List.replicate 32 0x11, by simp⟩

/-- The public key of `sampleKey` inside a record whose other fields differ. -/
def sampleKey₂ : ext_key where
  chain_code := ⟨List.replicate 32 0xAB, by simp⟩
  parent160 := ⟨List.replicate 20 0x01, by simp⟩
  depth := 3
  pad1 := zeros _
  priv_key := ⟨0x00 :: List.replicate 32 0x42, by simp⟩
  child_num := 7
  hash160 := ⟨List.replicate 20 0x99, by simp⟩
  version := 0x0488ADE4
  pad2 := zeros _
  pub_key := ⟨0x02 :: List.replicate 32 0x11, by simp⟩

/-! ## Facts about the machine-level helpers -/

/-- The test `v & ~0xff` is zero exactly when `v` fits in one byte. -/
theorem range_check_iff (v : uint32_t) : v &&& uint32_t.not 0xff = 0 ↔ v.val < 256 := by
  have hv := v.isLt
  have hval : (v &&& uint32_t.not 0xff).val = (v.val &&& 4294967040) % 4294967296 := rfl
  have hle : v.val &&& 4294967040 ≤ v.val := Nat.and_le_left
  have hx : v.val &&& 4294967040 = v.val ^^^ (v.val % 256) := by
    have h1 : (4294967040 : Nat) = (2 ^ 32 - 1) ^^^ (2 ^ 8 - 1) := by decide
    rw [h1, Nat.and_xor_distrib_left, Nat.and_pow_two_sub_one_eq_mod,
      Nat.and_pow_two_sub_one_eq_mod, Nat.mod_eq_of_lt (show v.val < 2 ^ 32 from hv)]
  rw [Fin.ext_iff, hval, Nat.mod_eq_of_lt (by omega), hx]
  show v.val ^^^ v.val % 256 = 0 ↔ _
  rw [Nat.xor_eq_zero]
  omega

/-- The value stored by `(unsigned char) version & 0xff` is the low byte of the version. -/
theorem version_byte (v : uint32_t) : (Byte.ofNat ((v.val % 256) &&& 0xff)).val = v.val % 256 := by
  have h : v.val % 256 &&& 0xff = (v.val % 256) % 2 ^ 8 := Nat.and_pow_two_sub_one_eq_mod _ 8
  simp only [Byte.ofNat, h]
  omega

/-- A 21-byte style buffer after `buf[0] = b` and a store of the remaining bytes at `buf + 1`. -/
theorem blit_poke_head (a : List Byte) (b : Byte) (d : List Byte) (ha : a.length = d.length + 1) :
    blit (poke a 0 b) 1 d = b :: d := by
  cases a with
  | nil => simp at ha
  | cons x t =>
    simp only [List.length_cons, Nat.add_right_cancel_iff] at ha
    simp [blit, poke, ← ha, Nat.add_comm]

/-- A buffer after `buf[0] = b`, `buf[1] = c` and a store of the remaining bytes at `buf + 2`. -/
theorem blit_poke_poke_head (a : List Byte) (b c : Byte) (d : List Byte)
    (ha : a.length = d.length + 2) : blit (poke (poke a 0 b) 1 c) 2 d = b :: c :: d := by
  match a, ha with
  | x :: y :: t, ha =>
    have ht : t.length = d.length := by simpa using ha
    simp [blit, poke, ← ht]
    omega

/-! ## Derivation paths -/

/-- The tests on `flags` evaluated at `WALLY_ADDRESS_TYPE_P2PKH`. -/
theorem p2pkh_flag_checks :
    WALLY_ADDRESS_TYPE_P2PKH &&& uint32_t.not 0xff = 0 ∧
    WALLY_ADDRESS_TYPE_P2PKH &&& (WALLY_ADDRESS_TYPE_P2PKH ||| WALLY_ADDRESS_TYPE_P2SH_P2WPKH) ≠ 0 ∧
    WALLY_ADDRESS_TYPE_P2PKH &&& WALLY_ADDRESS_TYPE_P2PKH ≠ 0 ∧
    WALLY_ADDRESS_TYPE_P2PKH &&& WALLY_ADDRESS_TYPE_P2SH_P2WPKH = 0 := by decide

/-- The tests on `flags` evaluated at `WALLY_ADDRESS_TYPE_P2SH_P2WPKH`. -/
theorem p2sh_p2wpkh_flag_checks :
    WALLY_ADDRESS_TYPE_P2SH_P2WPKH &&& uint32_t.not 0xff = 0 ∧
    WALLY_ADDRESS_TYPE_P2SH_P2WPKH &&&
      (WALLY_ADDRESS_TYPE_P2PKH ||| WALLY_ADDRESS_TYPE_P2SH_P2WPKH) ≠ 0 ∧
    WALLY_ADDRESS_TYPE_P2SH_P2WPKH &&& WALLY_ADDRESS_TYPE_P2PKH = 0 ∧
    WALLY_ADDRESS_TYPE_P2SH_P2WPKH &&& WALLY_ADDRESS_TYPE_P2SH_P2WPKH ≠ 0 ∧
    WALLY_ADDRESS_TYPE_P2SH_P2WPKH ≠ WALLY_ADDRESS_TYPE_P2PKH := by decide

/-- The byte stored in `address[0]` is the version itself when the version fits in a byte. -/
theorem version_byte_eq (v : uint32_t) (hv : v.val < 256) :
    Byte.ofNat ((v.val % 256) &&& 0xff) = ⟨v.val, hv⟩ := by
  apply Fin.ext
  rw [version_byte]
  exact Nat.mod_eq_of_lt hv

/-- The P2PKH path, once the argument checks are passed. -/
theorem p2pkh_run (env : Collaborators) (junk : AddressLocals) (key : ext_key)
    (version : uint32_t) (prev : Option String) (hv : version.val < 256)
    (h₁ : version ≠ WALLY_ADDRESS_VERSION_P2SH_MAINNET)
    (h₂ : version ≠ WALLY_ADDRESS_VERSION_P2SH_TESTNET) :
    wally_bip32_key_to_address env junk (some key) WALLY_ADDRESS_TYPE_P2PKH version (some prev) =
      match env.wally_hash160 key.pub_key.val 33 HASH160_LEN with
      | none =>
        ⟨WALLY_EINVAL, some none, poke junk.address.val 0 ⟨version.val, hv⟩, none,
          [Call.hash160 key.pub_key.val 33 HASH160_LEN]⟩
      | some d =>
        ⟨(env.wally_base58_from_bytes (⟨version.val, hv⟩ :: d.val) 21 BASE58_FLAG_CHECKSUM
            (some none)).1,
          some (env.wally_base58_from_bytes (⟨version.val, hv⟩ :: d.val) 21 BASE58_FLAG_CHECKSUM
            (some none)).2,
          wally_clear (⟨version.val, hv⟩ :: d.val), none,
          [Call.hash160 key.pub_key.val 33 HASH160_LEN,
            Call.base58_from_bytes (⟨version.val, hv⟩ :: d.val) 21 BASE58_FLAG_CHECKSUM,
            Call.clear 21]⟩ := by
  have hr := (range_check_iff version).2 hv
  obtain ⟨f₁, f₂, f₃, f₄⟩ := p2pkh_flag_checks
  unfold wally_bip32_key_to_address
  simp only [hr, f₁, f₂, f₃, f₄, h₁, h₂, version_byte_eq version hv, Option.map_some',
    ne_eq, not_true_eq_false, not_false_eq_true, false_or, or_false, and_false, false_and,
    if_false, if_true, reduceCtorEq]
  cases hd : env.wally_hash160 key.pub_key.val 33 HASH160_LEN with
  | none => rfl
  | some d =>
    have hb : blit (poke junk.address.val 0 ⟨version.val, hv⟩) 1 d.val = ⟨version.val, hv⟩ :: d.val :=
      blit_poke_head _ _ _ (by rw [junk.address.2, d.2])
    simp only [hb]

/-- The first two bytes of the redeem script and of the witness program. -/
theorem script_prefix : OP_0 = (0x00 : Byte) ∧ Byte.ofNat HASH160_LEN = (0x14 : Byte) := by decide

/-- The P2SH-P2WPKH path, once the argument checks are passed. -/
theorem p2sh_p2wpkh_run (env : Collaborators) (junk : AddressLocals) (key : ext_key)
    (version : uint32_t) (prev : Option String) (hv : version.val < 256)
    (h₁ : version ≠ WALLY_ADDRESS_VERSION_P2PKH_MAINNET)
    (h₂ : version ≠ WALLY_ADDRESS_VERSION_P2PKH_TESTNET) :
    wally_bip32_key_to_address env junk (some key) WALLY_ADDRESS_TYPE_P2SH_P2WPKH version
        (some prev) =
      match env.wally_hash160 key.pub_key.val 33 HASH160_LEN with
      | none =>
        ⟨WALLY_EINVAL, some none, junk.address.val,
          some (poke (poke junk.redeem_script.val 0 0x00) 1 0x14),
          [Call.hash160 key.pub_key.val 33 HASH160_LEN]⟩
      | some d =>
        match env.wally_hash160 (0x00 :: 0x14 :: d.val) 22 HASH160_LEN with
        | none =>
          ⟨WALLY_EINVAL, some none, poke junk.address.val 0 ⟨version.val, hv⟩,
            some (0x00 :: 0x14 :: d.val),
            [Call.hash160 key.pub_key.val 33 HASH160_LEN,
              Call.hash160 (0x00 :: 0x14 :: d.val) 22 HASH160_LEN]⟩
        | some d₂ =>
          ⟨(env.wally_base58_from_bytes (⟨version.val, hv⟩ :: d₂.val) 21 BASE58_FLAG_CHECKSUM
              (some none)).1,
            some (env.wally_base58_from_bytes (⟨version.val, hv⟩ :: d₂.val) 21
              BASE58_FLAG_CHECKSUM (some none)).2,
            wally_clear (⟨version.val, hv⟩ :: d₂.val), some (0x00 :: 0x14 :: d.val),
            [Call.hash160 key.pub_key.val 33 HASH160_LEN,
              Call.hash160 (0x00 :: 0x14 :: d.val) 22 HASH160_LEN,
              Call.base58_from_bytes (⟨version.val, hv⟩ :: d₂.val) 21 BASE58_FLAG_CHECKSUM,
              Call.clear 21]⟩ := by
  have hr := (range_check_iff version).2 hv
  obtain ⟨f₁, f₂, f₃, f₄, f₅⟩ := p2sh_p2wpkh_flag_checks
  obtain ⟨s₁, s₂⟩ := script_prefix
  unfold wally_bip32_key_to_address
  simp only [hr, f₁, f₂, f₃, f₄, f₅, h₁, h₂, s₁, s₂, version_byte_eq version hv,
    Option.map_some', ne_eq, not_true_eq_false, not_false_eq_true, false_or, or_false,
    and_false, false_and, if_false, if_true, reduceCtorEq]
  cases hd : env.wally_hash160 key.pub_key.val 33 HASH160_LEN with
  | none => rfl
  | some d =>
    have hs : blit (poke (poke junk.redeem_script.val 0 0x00) 1 0x14) 2 d.val =
        0x00 :: 0x14 :: d.val := blit_poke_poke_head _ _ _ _ (by rw [junk.redeem_script.2, d.2])
    simp only [hs]
    cases hd₂ : env.wally_hash160 (0x00 :: 0x14 :: d.val) 22 HASH160_LEN with
    | none => rfl
    | some d₂ =>
      have hb : blit (poke junk.address.val 0 ⟨version.val, hv⟩) 1 d₂.val =
          ⟨version.val, hv⟩ :: d₂.val := blit_poke_head _ _ _ (by rw [junk.address.2, d₂.2])
      simp only [hb]

/-- The native segwit path with a key present. -/
theorem segwit_run (env : Collaborators) (junk : Buf (HASH160_LEN + 2)) (key : ext_key)
    (addr_family : String) (flags : uint32_t) (output : OutPtr) :
    wally_bip32_key_to_addr_segwit env junk (some key) addr_family flags output =
      match env.wally_hash160 key.pub_key.val 33 HASH160_LEN with
      | none =>
        .ok ⟨WALLY_EINVAL, output, poke (poke junk.val 0 0x00) 1 0x14,
          [Call.hash160 key.pub_key.val 33 HASH160_LEN]⟩
      | some d =>
        .ok ⟨(env.wally_addr_segwit_from_bytes (0x00 :: 0x14 :: d.val) 22 addr_family flags
              output).1,
          output.map (fun _ => (env.wally_addr_segwit_from_bytes (0x00 :: 0x14 :: d.val) 22
              addr_family flags output).2),
          0x00 :: 0x14 :: d.val,
          [Call.hash160 key.pub_key.val 33 HASH160_LEN,
            Call.addr_segwit_from_bytes (0x00 :: 0x14 :: d.val) 22 addr_family flags]⟩ := by
  obtain ⟨s₁, s₂⟩ := script_prefix
  unfold wally_bip32_key_to_addr_segwit
  simp only [s₁, s₂]
  cases hd : env.wally_hash160 key.pub_key.val 33 HASH160_LEN with
  | none => rfl
  | some d =>
    have hs : blit (poke (poke junk.val 0 0x00) 1 0x14) 2 d.val = 0x00 :: 0x14 :: d.val :=
      blit_poke_poke_head _ _ _ _ (by rw [junk.2, d.2])
    simp only [hs]

/-- C1: P2PKH derivation. For every extended key and every version v in 0..255 other than 0x05
and 0xC4, with output present and hash160 succeeding on the 33-byte public key with digest d,
`wally_bip32_key_to_address` with `WALLY_ADDRESS_TYPE_P2PKH` returns the code, and leaves in
`*output` the string, that `wally_base58_from_bytes` with `BASE58_FLAG_CHECKSUM` gives on the
21-byte payload `[v] ++ d`, version byte first. -/
theorem p2pkh_address_is_base58check_of_version_then_hash (env : Collaborators)
    (junk : AddressLocals) (key : ext_key) (version : uint32_t) (prev : Option String)
    (d : Buf HASH160_LEN) (hv : version.val < 256) (h₁ : version ≠ 0x05) (h₂ : version ≠ 0xC4)
    (hd : env.wally_hash160 key.pub_key.val 33 HASH160_LEN = some d) :
    key.pub_key.val.length = 33 ∧
    ((⟨version.val, hv⟩ : Byte) :: d.val).length = 21 ∧
    (wally_bip32_key_to_address env junk (some key) WALLY_ADDRESS_TYPE_P2PKH version
        (some prev)).ret =
      (env.wally_base58_from_bytes (⟨version.val, hv⟩ :: d.val) 21 BASE58_FLAG_CHECKSUM
        (some none)).1 ∧
    (wally_bip32_key_to_address env junk (some key) WALLY_ADDRESS_TYPE_P2PKH version
        (some prev)).output =
      some (env.wally_base58_from_bytes (⟨version.val, hv⟩ :: d.val) 21 BASE58_FLAG_CHECKSUM
        (some none)).2 := by
  rw [p2pkh_run env junk key version prev hv h₁ h₂, hd]
  exact ⟨key.pub_key.2, by rw [List.length_cons, d.2], rfl, rfl⟩

/-- C1 at a concrete input: mainnet version 0x00, `*output` holding a stale string. -/
theorem p2pkh_address_is_base58check_of_version_then_hash_witness :
    (wally_bip32_key_to_address sampleEnv sampleLocals (some sampleKey) WALLY_ADDRESS_TYPE_P2PKH
        0x00 (some (some "stale"))).output =
      some (sampleEnv.wally_base58_from_bytes (0x00 :: List.replicate 20 0x22) 21
        BASE58_FLAG_CHECKSUM (some none)).2 :=
  (p2pkh_address_is_base58check_of_version_then_hash sampleEnv sampleLocals sampleKey 0x00
    (some "stale") ⟨List.replicate 20 0x22, by decide⟩ (by decide) (by decide) (by decide)
    (by decide)).2.2.2

/-- C2: P2SH-wrapped-segwit derivation. For every extended key and every version v in 0..255
other than 0x00 and 0x6F, with output present and both hash160 calls succeeding (d on the
public key, d₂ on the redeem script), `wally_bip32_key_to_address` with
`WALLY_ADDRESS_TYPE_P2SH_P2WPKH` returns the code, and leaves in `*output` the string, that
`wally_base58_from_bytes` with `BASE58_FLAG_CHECKSUM` gives on the 21-byte payload `[v] ++ d₂`,
where the redeem script hashed into d₂ is the 22-byte string `[0x00, 0x14] ++ d`. -/
theorem p2sh_p2wpkh_address_is_base58check_of_version_then_script_hash (env : Collaborators)
    (junk : AddressLocals) (key : ext_key) (version : uint32_t) (prev : Option String)
    (d d₂ : Buf HASH160_LEN) (hv : version.val < 256) (h₁ : version ≠ 0x00)
    (h₂ : version ≠ 0x6F)
    (hd : env.wally_hash160 key.pub_key.val 33 HASH160_LEN = some d)
    (hd₂ : env.wally_hash160 (0x00 :: 0x14 :: d.val) 22 HASH160_LEN = some d₂) :
    ((0x00 : Byte) :: 0x14 :: d.val).length = 22 ∧
    ((⟨version.val, hv⟩ : Byte) :: d₂.val).length = 21 ∧
    (wally_bip32_key_to_address env junk (some key) WALLY_ADDRESS_TYPE_P2SH_P2WPKH version
        (some prev)).ret =
      (env.wally_base58_from_bytes (⟨version.val, hv⟩ :: d₂.val) 21 BASE58_FLAG_CHECKSUM
        (some none)).1 ∧
    (wally_bip32_key_to_address env junk (some key) WALLY_ADDRESS_TYPE_P2SH_P2WPKH version
        (some prev)).output =
      some (env.wally_base58_from_bytes (⟨version.val, hv⟩ :: d₂.val) 21 BASE58_FLAG_CHECKSUM
        (some none)).2 := by
  have run := p2sh_p2wpkh_run env junk key version prev hv h₁ h₂
  rw [hd] at run
  simp only [hd₂] at run
  rw [run]
  exact ⟨by simp only [List.length_cons, d.2], by rw [List.length_cons, d₂.2], rfl, rfl⟩

/-- C2 at a concrete input: mainnet P2SH version 0x05. -/
theorem p2sh_p2wpkh_address_is_base58check_of_version_then_script_hash_witness :
    (wally_bip32_key_to_address sampleEnv sampleLocals (some sampleKey)
        WALLY_ADDRESS_TYPE_P2SH_P2WPKH 0x05 (some none)).output =
      some (sampleEnv.wally_base58_from_bytes (0x05 :: List.replicate 20 0xBC) 21
        BASE58_FLAG_CHECKSUM (some none)).2 :=
  (p2sh_p2wpkh_address_is_base58check_of_version_then_script_hash sampleEnv sampleLocals
    sampleKey 0x05 none ⟨List.replicate 20 0x22, by decide⟩ ⟨List.replicate 20 0xBC, by decide⟩
    (by decide) (by decide) (by decide) (by decide) (by decide)).2.2.2

/-- C3: native segwit derivation. For every extended key, every address family and every
flags value, when hash160 succeeds on the 33-byte public key with digest d,
`wally_bip32_key_to_addr_segwit` returns, and its return code and the string left in `*output`
are those of `wally_addr_segwit_from_bytes` called on the 22-byte witness program
`[0x00, 0x14] ++ d` with length 22 and with the family, the flags and the destination passed
through unchanged. -/
theorem segwit_address_is_segwit_from_bytes_of_witness_program (env : Collaborators)
    (junk : Buf (HASH160_LEN + 2)) (key : ext_key) (addr_family : String) (flags : uint32_t)
    (output : OutPtr) (d : Buf HASH160_LEN)
    (hd : env.wally_hash160 key.pub_key.val 33 HASH160_LEN = some d) :
    ((0x00 : Byte) :: 0x14 :: d.val).length = 22 ∧
    ∃ r, wally_bip32_key_to_addr_segwit env junk (some key) addr_family flags output = .ok r ∧
      r.ret = (env.wally_addr_segwit_from_bytes (0x00 :: 0x14 :: d.val) 22 addr_family flags
        output).1 ∧
      r.output = output.map (fun _ =>
        (env.wally_addr_segwit_from_bytes (0x00 :: 0x14 :: d.val) 22 addr_family flags
          output).2) ∧
      r.calls = [Call.hash160 key.pub_key.val 33 HASH160_LEN,
        Call.addr_segwit_from_bytes (0x00 :: 0x14 :: d.val) 22 addr_family flags] := by
  rw [segwit_run env junk key addr_family flags output, hd]
  exact ⟨by simp only [List.length_cons, d.2], _, rfl, rfl, rfl, rfl⟩

/-- C3 at a concrete input: family "bc", flags 0. -/
theorem segwit_address_is_segwit_from_bytes_of_witness_program_witness :
    ∃ r, wally_bip32_key_to_addr_segwit sampleEnv (zeros _) (some sampleKey) "bc" 0
        (some none) = .ok r ∧
      r.ret = (sampleEnv.wally_addr_segwit_from_bytes (0x00 :: 0x14 :: List.replicate 20 0x22)
        22 "bc" 0 (some none)).1 :=
  have h := (segwit_address_is_segwit_from_bytes_of_witness_program sampleEnv (zeros _)
    sampleKey "bc" 0 (some none) ⟨List.replicate 20 0x22, by decide⟩ (by decide)).2
  h.elim fun r hr => ⟨r, hr.1, hr.2.1⟩

/-! ## Argument validation -/

/-- Every early exit: a call that fails one of the argument checks returns `WALLY_EINVAL` with
`*output` null (when there is a destination), the locals untouched and nothing called. -/
theorem args_rejected (env : Collaborators) (junk : AddressLocals) (hdkey : Option ext_key)
    (flags version : uint32_t) (output : OutPtr)
    (h : hdkey = none ∨ version &&& uint32_t.not 0xff ≠ 0 ∨ flags &&& uint32_t.not 0xff ≠ 0 ∨
      output = none ∨
      flags &&& (WALLY_ADDRESS_TYPE_P2PKH ||| WALLY_ADDRESS_TYPE_P2SH_P2WPKH) = 0 ∨
      (flags &&& WALLY_ADDRESS_TYPE_P2PKH ≠ 0 ∧ version = WALLY_ADDRESS_VERSION_P2SH_MAINNET) ∨
      (flags &&& WALLY_ADDRESS_TYPE_P2SH_P2WPKH ≠ 0 ∧
        version = WALLY_ADDRESS_VERSION_P2PKH_MAINNET) ∨
      (flags &&& WALLY_ADDRESS_TYPE_P2PKH ≠ 0 ∧ version = WALLY_ADDRESS_VERSION_P2SH_TESTNET) ∨
      (flags &&& WALLY_ADDRESS_TYPE_P2SH_P2WPKH ≠ 0 ∧
        version = WALLY_ADDRESS_VERSION_P2PKH_TESTNET)) :
    wally_bip32_key_to_address env junk hdkey flags version output =
      ⟨WALLY_EINVAL, output.map (fun _ => none), junk.address.val, none, []⟩ := by
  unfold wally_bip32_key_to_address
  cases hdkey with
  | none => rfl
  | some key =>
    simp only [Option.map_eq_none']
    split_ifs with c₁ c₂ c₃ c₄
    · rfl
    · rfl
    · rfl
    · exfalso
      simp only [not_or, not_and, not_not, ne_eq] at c₁ c₂ c₃
      rcases h with h | h | h | h | h | h | h | h | h
      · exact absurd h (by simp)
      · exact h c₁.1
      · exact h c₁.2.1
      · exact c₁.2.2 h
      · exact c₂ h
      · exact c₃.1 h.1 h.2
      · exact c₃.2.1 h.1 h.2
      · exact c₃.2.2.1 h.1 h.2
      · exact c₃.2.2.2 h.1 h.2
    · exfalso
      simp only [not_or, not_and, not_not, ne_eq] at c₁ c₂ c₃
      rcases h with h | h | h | h | h | h | h | h | h
      · exact absurd h (by simp)
      · exact h c₁.1
      · exact h c₁.2.1
      · exact c₁.2.2 h
      · exact c₂ h
      · exact c₃.1 h.1 h.2
      · exact c₃.2.1 h.1 h.2
      · exact c₃.2.2.1 h.1 h.2
      · exact c₃.2.2.2 h.1 h.2

/-- C4: known version/type mismatches are rejected. For every extended key (present or not)
and every destination, `wally_bip32_key_to_address` returns `WALLY_EINVAL`, leaves `*output`
null and calls neither hash160 nor the encoder when the P2PKH type is requested with version
0x05 or 0xC4, and when the P2SH-wrapped-segwit type is requested with version 0x00 or 0x6F. -/
theorem known_version_type_mismatch_rejected (env : Collaborators) (junk : AddressLocals)
    (hdkey : Option ext_key) (flags version : uint32_t) (output : OutPtr)
    (h : (flags = WALLY_ADDRESS_TYPE_P2PKH ∧ (version = 0x05 ∨ version = 0xC4)) ∨
      (flags = WALLY_ADDRESS_TYPE_P2SH_P2WPKH ∧ (version = 0x00 ∨ version = 0x6F))) :
    (wally_bip32_key_to_address env junk hdkey flags version output).ret = WALLY_EINVAL ∧
    (wally_bip32_key_to_address env junk hdkey flags version output).output =
      output.map (fun _ => none) ∧
    (wally_bip32_key_to_address env junk hdkey flags version output).calls = [] := by
  rw [args_rejected env junk hdkey flags version output]
  · exact ⟨rfl, rfl, rfl⟩
  · obtain ⟨_, _, f₃, _⟩ := p2pkh_flag_checks
    obtain ⟨_, _, _, g₄, _⟩ := p2sh_p2wpkh_flag_checks
    rcases h with ⟨rfl, rfl | rfl⟩ | ⟨rfl, rfl | rfl⟩
    · exact Or.inr (Or.inr (Or.inr (Or.inr (Or.inr (Or.inl ⟨f₃, rfl⟩)))))
    · exact Or.inr (Or.inr (Or.inr (Or.inr (Or.inr (Or.inr (Or.inr (Or.inl ⟨f₃, rfl⟩)))))))
    · exact Or.inr (Or.inr (Or.inr (Or.inr (Or.inr (Or.inr (Or.inl ⟨g₄, rfl⟩))))))
    · exact Or.inr (Or.inr (Or.inr (Or.inr (Or.inr (Or.inr (Or.inr (Or.inr ⟨g₄, rfl⟩)))))))

/-- C4 at a concrete input: the P2SH-wrapped type with the mainnet P2PKH version 0x00. -/
theorem known_version_type_mismatch_rejected_witness :
    (wally_bip32_key_to_address sampleEnv sampleLocals (some sampleKey)
        WALLY_ADDRESS_TYPE_P2SH_P2WPKH 0x00 (some (some "stale"))).ret = WALLY_EINVAL ∧
    (wally_bip32_key_to_address sampleEnv sampleLocals (some sampleKey)
        WALLY_ADDRESS_TYPE_P2SH_P2WPKH 0x00 (some (some "stale"))).output = some none :=
  have h := known_version_type_mismatch_rejected sampleEnv sampleLocals (some sampleKey)
    WALLY_ADDRESS_TYPE_P2SH_P2WPKH 0x00 (some (some "stale")) (Or.inr ⟨rfl, Or.inl rfl⟩)
  ⟨h.1, h.2.1⟩


/-- The first check on the type bits fails exactly when neither bit is set. -/
theorem no_type_bit_iff (flags : uint32_t) :
    flags &&& (WALLY_ADDRESS_TYPE_P2PKH ||| WALLY_ADDRESS_TYPE_P2SH_P2WPKH) = 0 ↔
      flags &&& WALLY_ADDRESS_TYPE_P2PKH = 0 ∧ flags &&& WALLY_ADDRESS_TYPE_P2SH_P2WPKH = 0 := by
  have h3 : (flags &&& (WALLY_ADDRESS_TYPE_P2PKH ||| WALLY_ADDRESS_TYPE_P2SH_P2WPKH)).val =
      (flags.val &&& (1 ||| 2)) % 4294967296 := rfl
  have h1 : (flags &&& WALLY_ADDRESS_TYPE_P2PKH).val = (flags.val &&& 1) % 4294967296 := rfl
  have h2 : (flags &&& WALLY_ADDRESS_TYPE_P2SH_P2WPKH).val = (flags.val &&& 2) % 4294967296 :=
    rfl
  have b1 : flags.val &&& 1 ≤ 1 := Nat.and_le_right
  have b2 : flags.val &&& 2 ≤ 2 := Nat.and_le_right
  have b3 : flags.val &&& (1 ||| 2) ≤ 3 := Nat.and_le_right
  rw [Fin.ext_iff, Fin.ext_iff, Fin.ext_iff, h1, h2, h3, Nat.mod_eq_of_lt (by omega),
    Nat.mod_eq_of_lt (by omega), Nat.mod_eq_of_lt (by omega), Nat.and_or_distrib_left]
  show flags.val &&& 1 ||| flags.val &&& 2 = 0 ↔ flags.val &&& 1 = 0 ∧ flags.val &&& 2 = 0
  constructor
  · intro h
    constructor
    · apply Nat.eq_of_testBit_eq
      intro i
      have := congrArg (fun n => Nat.testBit n i) h
      simp only [Nat.testBit_or, Nat.zero_testBit, Bool.or_eq_false_iff] at this
      simpa using this.1
    · apply Nat.eq_of_testBit_eq
      intro i
      have := congrArg (fun n => Nat.testBit n i) h
      simp only [Nat.testBit_or, Nat.zero_testBit, Bool.or_eq_false_iff] at this
      simpa using this.2
  · rintro ⟨h, h'⟩
    rw [h, h']
    rfl

/-- The range check on `flags` or `version` fails exactly above 0xff. -/
theorem range_check_fails_iff (v : uint32_t) : v &&& uint32_t.not 0xff ≠ 0 ↔ 0xff < v.val := by
  rw [ne_eq, range_check_iff]
  omega

/-- C5, the claim as stated fails: with both type bits set (flags = 0x03) and version 0x10 the
call succeeds and produces an address. -/
theorem both_type_bits_set_is_accepted :
    (0x03 : uint32_t) &&& WALLY_ADDRESS_TYPE_P2PKH ≠ 0 ∧
    (0x03 : uint32_t) &&& WALLY_ADDRESS_TYPE_P2SH_P2WPKH ≠ 0 ∧
    (wally_bip32_key_to_address sampleEnv sampleLocals (some sampleKey) 0x03 0x10
      (some none)).ret = WALLY_OK ∧
    (wally_bip32_key_to_address sampleEnv sampleLocals (some sampleKey) 0x03 0x10
      (some none)).output = some (some "10bcbcbcbcbcbcbcbcbcbcbcbcbcbcbcbcbcbcbcbc") := by
  decide

/-- C5, amended: `wally_bip32_key_to_address` checks that the type flags name at least one of
P2PKH and P2SH-wrapped-segwit. For every extended key and every version, if flags has neither
of the bits 0x01 and 0x02 set, the call returns `WALLY_EINVAL` and produces no address; if it
has both of them set, the call returns `WALLY_EINVAL` and produces no address when the version
is one of 0x00, 0x05, 0x6F and 0xC4. -/
theorem type_bits_validated (env : Collaborators) (junk : AddressLocals)
    (hdkey : Option ext_key) (flags version : uint32_t) (output : OutPtr)
    (h : (flags &&& WALLY_ADDRESS_TYPE_P2PKH = 0 ∧ flags &&& WALLY_ADDRESS_TYPE_P2SH_P2WPKH = 0) ∨
      (flags &&& WALLY_ADDRESS_TYPE_P2PKH ≠ 0 ∧ flags &&& WALLY_ADDRESS_TYPE_P2SH_P2WPKH ≠ 0 ∧
        (version = 0x00 ∨ version = 0x05 ∨ version = 0x6F ∨ version = 0xC4))) :
    (wally_bip32_key_to_address env junk hdkey flags version output).ret = WALLY_EINVAL ∧
    (wally_bip32_key_to_address env junk hdkey flags version output).output =
      output.map (fun _ => none) ∧
    (wally_bip32_key_to_address env junk hdkey flags version output).calls = [] := by
  rw [args_rejected env junk hdkey flags version output]
  · exact ⟨rfl, rfl, rfl⟩
  · rcases h with h | ⟨p, q, rfl | rfl | rfl | rfl⟩
    · exact Or.inr (Or.inr (Or.inr (Or.inr (Or.inl ((no_type_bit_iff flags).2 h)))))
    · exact Or.inr (Or.inr (Or.inr (Or.inr (Or.inr (Or.inr (Or.inl ⟨q, rfl⟩))))))
    · exact Or.inr (Or.inr (Or.inr (Or.inr (Or.inr (Or.inl ⟨p, rfl⟩)))))
    · exact Or.inr (Or.inr (Or.inr (Or.inr (Or.inr (Or.inr (Or.inr (Or.inr ⟨q, rfl⟩)))))))
    · exact Or.inr (Or.inr (Or.inr (Or.inr (Or.inr (Or.inr (Or.inr (Or.inl ⟨p, rfl⟩)))))))

/-- C5 as amended, at two concrete inputs: flags 0x04 (neither bit), and flags 0x03 with
version 0x05. -/
theorem type_bits_validated_witness :
    (wally_bip32_key_to_address sampleEnv sampleLocals (some sampleKey)
      WALLY_ADDRESS_TYPE_P2WPKH 0x00 (some (some "stale"))).ret = WALLY_EINVAL ∧
    (wally_bip32_key_to_address sampleEnv sampleLocals (some sampleKey) 0x03 0x05
      (some (some "stale"))).output = some none :=
  ⟨(type_bits_validated sampleEnv sampleLocals (some sampleKey) WALLY_ADDRESS_TYPE_P2WPKH 0x00
      (some (some "stale")) (Or.inl (by decide))).1,
    (type_bits_validated sampleEnv sampleLocals (some sampleKey) 0x03 0x05
      (some (some "stale")) (Or.inr (by decide))).2.1⟩

/-- C6, the claim as stated fails: flags = 0x09 has the bit 0x08 set, which is none of the
address-type bits that are defined, and with version 0x10 the call succeeds and produces an
address. -/
theorem undefined_low_flag_bit_is_accepted :
    (0x09 : uint32_t) &&& uint32_t.not (WALLY_ADDRESS_TYPE_P2PKH |||
      WALLY_ADDRESS_TYPE_P2SH_P2WPKH ||| WALLY_ADDRESS_TYPE_P2WPKH) ≠ 0 ∧
    (wally_bip32_key_to_address sampleEnv sampleLocals (some sampleKey) 0x09 0x10
      (some none)).ret = WALLY_OK ∧
    (wally_bip32_key_to_address sampleEnv sampleLocals (some sampleKey) 0x09 0x10
      (some none)).output = some (some "10bcbcbcbcbcbcbcbcbcbcbcbcbcbcbcbcbcbcbcbc") := by
  decide

/-- C6, amended: flags outside the low eight bits are rejected rather than masked. For every
extended key and every version, if flags has any bit set above the low 8 bits (flags greater
than 0xff, for example 0x100), `wally_bip32_key_to_address` returns `WALLY_EINVAL` and
produces no address. -/
theorem high_flag_bits_rejected (env : Collaborators) (junk : AddressLocals)
    (hdkey : Option ext_key) (flags version : uint32_t) (output : OutPtr)
    (h : 0xff < flags.val) :
    (wally_bip32_key_to_address env junk hdkey flags version output).ret = WALLY_EINVAL ∧
    (wally_bip32_key_to_address env junk hdkey flags version output).output =
      output.map (fun _ => none) ∧
    (wally_bip32_key_to_address env junk hdkey flags version output).calls = [] := by
  rw [args_rejected env junk hdkey flags version output
    (Or.inr (Or.inr (Or.inl ((range_check_fails_iff flags).2 h))))]
  exact ⟨rfl, rfl, rfl⟩

/-- C6 as amended, at a concrete input: flags 0x100. -/
theorem high_flag_bits_rejected_witness :
    (wally_bip32_key_to_address sampleEnv sampleLocals (some sampleKey) 0x100 0x10
      (some (some "stale"))).ret = WALLY_EINVAL ∧
    (wally_bip32_key_to_address sampleEnv sampleLocals (some sampleKey) 0x100 0x10
      (some (some "stale"))).output = some none :=
  have h := high_flag_bits_rejected sampleEnv sampleLocals (some sampleKey) 0x100 0x10
    (some (some "stale")) (by decide)
  ⟨h.1, h.2.1⟩

/-- C7: the derivation operations depend on the extended key only through its public key. For
any two extended keys whose `pub_key` fields are equal, all other fields arbitrary, and
identical remaining arguments, `wally_bip32_key_to_address` returns the same code and leaves
the same `*output` (indeed the same state altogether), and likewise
`wally_bip32_key_to_addr_segwit`. -/
theorem derivation_reads_only_pub_key (env : Collaborators) (junk : AddressLocals)
    (junk' : Buf (HASH160_LEN + 2)) (k₁ k₂ : ext_key) (flags version : uint32_t)
    (output : OutPtr) (addr_family : String) (segwit_flags : uint32_t) (segwit_output : OutPtr)
    (h : k₁.pub_key = k₂.pub_key) :
    wally_bip32_key_to_address env junk (some k₁) flags version output =
      wally_bip32_key_to_address env junk (some k₂) flags version output ∧
    wally_bip32_key_to_addr_segwit env junk' (some k₁) addr_family segwit_flags segwit_output =
      wally_bip32_key_to_addr_segwit env junk' (some k₂) addr_family segwit_flags
        segwit_output := by
  refine ⟨?_, ?_⟩
  · unfold wally_bip32_key_to_address
    simp only [h]
  · unfold wally_bip32_key_to_addr_segwit
    simp only [h]

/-- C7 at two concrete keys that share the public key and differ in other fields. -/
theorem derivation_reads_only_pub_key_witness :
    sampleKey ≠ sampleKey₂ ∧
    wally_bip32_key_to_address sampleEnv sampleLocals (some sampleKey) 0x01 0x00 (some none) =
      wally_bip32_key_to_address sampleEnv sampleLocals (some sampleKey₂) 0x01 0x00
        (some none) ∧
    wally_bip32_key_to_addr_segwit sampleEnv (zeros _) (some sampleKey) "bc" 0 (some none) =
      wally_bip32_key_to_addr_segwit sampleEnv (zeros _) (some sampleKey₂) "bc" 0 (some none) :=
  ⟨by decide, derivation_reads_only_pub_key sampleEnv sampleLocals (zeros _) sampleKey sampleKey₂
    0x01 0x00 (some none) "bc" 0 (some none) (by decide)⟩

/-- Every return of `wally_bip32_key_to_address` with a destination present: either the call
stopped before the encoder, with `WALLY_EINVAL` and `*output` null, or it ended in the one call
of the encoder, whose code and string it hands back. -/
theorem return_cases (env : Collaborators) (junk : AddressLocals) (hdkey : Option ext_key)
    (flags version : uint32_t) (prev : Option String) :
    ((wally_bip32_key_to_address env junk hdkey flags version (some prev)).ret = WALLY_EINVAL ∧
      (wally_bip32_key_to_address env junk hdkey flags version (some prev)).output =
        some none ∧
      ∀ bytes len fl, Call.base58_from_bytes bytes len fl ∉
        (wally_bip32_key_to_address env junk hdkey flags version (some prev)).calls) ∨
    ∃ payload,
      (wally_bip32_key_to_address env junk hdkey flags version (some prev)).ret =
        (env.wally_base58_from_bytes payload 21 BASE58_FLAG_CHECKSUM (some none)).1 ∧
      (wally_bip32_key_to_address env junk hdkey flags version (some prev)).output =
        some (env.wally_base58_from_bytes payload 21 BASE58_FLAG_CHECKSUM (some none)).2 ∧
      Call.base58_from_bytes payload 21 BASE58_FLAG_CHECKSUM ∈
        (wally_bip32_key_to_address env junk hdkey flags version (some prev)).calls := by
  generalize hr : wally_bip32_key_to_address env junk hdkey flags version (some prev) = r
  unfold wally_bip32_key_to_address at hr
  cases hdkey with
  | none =>
    subst hr
    exact Or.inl ⟨rfl, rfl, by simp⟩
  | some key =>
    simp only [Option.map_some'] at hr
    split_ifs at hr
    all_goals first
      | (subst hr
         exact Or.inl ⟨rfl, rfl, by simp⟩)
      | (split at hr
         · subst hr
           exact Or.inl ⟨rfl, rfl, by simp⟩
         · first
           | (subst hr
              exact Or.inr ⟨_, rfl, rfl, by simp⟩)
           | (split at hr
              · subst hr
                exact Or.inl ⟨rfl, rfl, by simp⟩
              · subst hr
                exact Or.inr ⟨_, rfl, rfl, by simp⟩))

/-- C8: an encode failure leaves the output pointer null. For every call of
`wally_bip32_key_to_address` with output present that returns a code other than `WALLY_OK`,
`*output` is null on return, whatever it held before the call. When the failure is one of the
function's own (absent key, version or flags out of range, no type bit set, known
version/type mismatch, hash160 failure) the encoder is not called and the second hypothesis is
empty; when the code comes from the Base58 encoder, the encoder is taken to leave `*output`
null on that failing call. -/
theorem failure_leaves_output_null (env : Collaborators) (junk : AddressLocals)
    (hdkey : Option ext_key) (flags version : uint32_t) (prev : Option String)
    (hret : (wally_bip32_key_to_address env junk hdkey flags version (some prev)).ret ≠ WALLY_OK)
    (hb58 : ∀ bytes len fl, Call.base58_from_bytes bytes len fl ∈
        (wally_bip32_key_to_address env junk hdkey flags version (some prev)).calls →
      (env.wally_base58_from_bytes bytes len fl (some none)).1 ≠ WALLY_OK →
      (env.wally_base58_from_bytes bytes len fl (some none)).2 = none) :
    (wally_bip32_key_to_address env junk hdkey flags version (some prev)).output = some none := by
  rcases return_cases env junk hdkey flags version prev with ⟨_, h, _⟩ | ⟨payload, h₁, h₂, h₃⟩
  · exact h
  · rw [h₂, hb58 payload 21 BASE58_FLAG_CHECKSUM h₃ (h₁ ▸ hret)]

/-- C8 at two concrete failures, `*output` holding a stale string before the call: hash160
failing (the encoder is not reached) and the encoder failing with -3. -/
theorem failure_leaves_output_null_witness :
    ((wally_bip32_key_to_address hashFailEnv sampleLocals (some sampleKey)
        WALLY_ADDRESS_TYPE_P2SH_P2WPKH 0x05 (some (some "stale"))).ret ≠ WALLY_OK ∧
      (wally_bip32_key_to_address hashFailEnv sampleLocals (some sampleKey)
        WALLY_ADDRESS_TYPE_P2SH_P2WPKH 0x05 (some (some "stale"))).output = some none) ∧
    ((wally_bip32_key_to_address encodeFailEnv sampleLocals (some sampleKey)
        WALLY_ADDRESS_TYPE_P2PKH 0x00 (some (some "stale"))).ret ≠ WALLY_OK ∧
      (wally_bip32_key_to_address encodeFailEnv sampleLocals (some sampleKey)
        WALLY_ADDRESS_TYPE_P2PKH 0x00 (some (some "stale"))).output = some none) :=
  ⟨⟨by decide, failure_leaves_output_null hashFailEnv sampleLocals (some sampleKey)
      WALLY_ADDRESS_TYPE_P2SH_P2WPKH 0x05 (some "stale") (by decide)
      (fun bytes len fl hmem _ => by
        have h : Call.base58_from_bytes bytes len fl ∈
            [Call.hash160 sampleKey.pub_key.val 33 HASH160_LEN] := hmem
        simp at h)⟩,
    ⟨by decide, failure_leaves_output_null encodeFailEnv sampleLocals (some sampleKey)
      WALLY_ADDRESS_TYPE_P2PKH 0x00 (some "stale") (by decide) (fun _ _ _ _ _ => rfl)⟩⟩

/-- C9: absent required inputs are rejected. For every flags and version,
`wally_bip32_key_to_address` returns `WALLY_EINVAL` when the extended key is absent and when
the output destination is absent, and in both cases it calls neither hash160 nor the Base58
encoder (it calls nothing at all). -/
theorem absent_key_or_output_rejected (env : Collaborators) (junk : AddressLocals)
    (hdkey : Option ext_key) (flags version : uint32_t) (output : OutPtr) :
    ((wally_bip32_key_to_address env junk none flags version output).ret = WALLY_EINVAL ∧
      (wally_bip32_key_to_address env junk none flags version output).calls = []) ∧
    ((wally_bip32_key_to_address env junk hdkey flags version none).ret = WALLY_EINVAL ∧
      (wally_bip32_key_to_address env junk hdkey flags version none).calls = []) := by
  rw [args_rejected env junk none flags version output (Or.inl rfl),
    args_rejected env junk hdkey flags version none (Or.inr (Or.inr (Or.inr (Or.inl rfl))))]
  exact ⟨⟨rfl, rfl⟩, rfl, rfl⟩

/-- C10, what the code does: `wally_bip32_key_to_addr_segwit` has no check of `hdkey`. For every
address family, flags and destination, a call with the extended key absent does not return
`WALLY_EINVAL`, nor anything else: it accesses `hdkey->pub_key` through the null pointer. -/
theorem segwit_absent_key_is_dereferenced (env : Collaborators) (junk : Buf (HASH160_LEN + 2))
    (addr_family : String) (flags : uint32_t) (output : OutPtr) :
    wally_bip32_key_to_addr_segwit env junk none addr_family flags output =
      .error Fault.null_dereference ∧
    ∀ r, wally_bip32_key_to_addr_segwit env junk none addr_family flags output ≠ .ok r := by
  refine ⟨rfl, fun r h => ?_⟩
  exact absurd h (by simp [wally_bip32_key_to_addr_segwit])


/-! ## Path selection and local buffers -/

/-- The branch taken for every `flags` other than exactly `WALLY_ADDRESS_TYPE_P2PKH`, once the
argument checks are passed: the P2SH-P2WPKH path. -/
theorem wrapped_run (env : Collaborators) (junk : AddressLocals) (key : ext_key)
    (flags version : uint32_t) (prev : Option String) (hv : version.val < 256)
    (hf : flags &&& uint32_t.not 0xff = 0)
    (ht : flags &&& (WALLY_ADDRESS_TYPE_P2PKH ||| WALLY_ADDRESS_TYPE_P2SH_P2WPKH) ≠ 0)
    (hm : ¬((flags &&& WALLY_ADDRESS_TYPE_P2PKH ≠ 0 ∧
              version = WALLY_ADDRESS_VERSION_P2SH_MAINNET) ∨
            (flags &&& WALLY_ADDRESS_TYPE_P2SH_P2WPKH ≠ 0 ∧
              version = WALLY_ADDRESS_VERSION_P2PKH_MAINNET) ∨
            (flags &&& WALLY_ADDRESS_TYPE_P2PKH ≠ 0 ∧
              version = WALLY_ADDRESS_VERSION_P2SH_TESTNET) ∨
            (flags &&& WALLY_ADDRESS_TYPE_P2SH_P2WPKH ≠ 0 ∧
              version = WALLY_ADDRESS_VERSION_P2PKH_TESTNET)))
    (hne : flags ≠ WALLY_ADDRESS_TYPE_P2PKH) :
    wally_bip32_key_to_address env junk (some key) flags version (some prev) =
      match env.wally_hash160 key.pub_key.val 33 HASH160_LEN with
      | none =>
        ⟨WALLY_EINVAL, some none, junk.address.val,
          some (poke (poke junk.redeem_script.val 0 0x00) 1 0x14),
          [Call.hash160 key.pub_key.val 33 HASH160_LEN]⟩
      | some d =>
        match env.wally_hash160 (0x00 :: 0x14 :: d.val) 22 HASH160_LEN with
        | none =>
          ⟨WALLY_EINVAL, some none, poke junk.address.val 0 ⟨version.val, hv⟩,
            some (0x00 :: 0x14 :: d.val),
            [Call.hash160 key.pub_key.val 33 HASH160_LEN,
              Call.hash160 (0x00 :: 0x14 :: d.val) 22 HASH160_LEN]⟩
        | some d₂ =>
          ⟨(env.wally_base58_from_bytes (⟨version.val, hv⟩ :: d₂.val) 21 BASE58_FLAG_CHECKSUM
              (some none)).1,
            some (env.wally_base58_from_bytes (⟨version.val, hv⟩ :: d₂.val) 21
              BASE58_FLAG_CHECKSUM (some none)).2,
            wally_clear (⟨version.val, hv⟩ :: d₂.val), some (0x00 :: 0x14 :: d.val),
            [Call.hash160 key.pub_key.val 33 HASH160_LEN,
              Call.hash160 (0x00 :: 0x14 :: d.val) 22 HASH160_LEN,
              Call.base58_from_bytes (⟨version.val, hv⟩ :: d₂.val) 21 BASE58_FLAG_CHECKSUM,
              Call.clear 21]⟩ := by
  have hr := (range_check_iff version).2 hv
  obtain ⟨s₁, s₂⟩ := script_prefix
  have c₁ : ¬(version &&& uint32_t.not 0xff ≠ 0 ∨ flags &&& uint32_t.not 0xff ≠ 0 ∨
      (some none : OutPtr) = none) := by
    rintro (h | h | h)
    · exact h hr
    · exact h hf
    · exact absurd h (by simp)
  unfold wally_bip32_key_to_address
  simp only [Option.map_some']
  rw [if_neg c₁, if_neg ht, if_neg hm, if_neg hne]
  simp only [s₁, s₂, version_byte_eq version hv]
  cases hd : env.wally_hash160 key.pub_key.val 33 HASH160_LEN with
  | none => rfl
  | some d =>
    have hs : blit (poke (poke junk.redeem_script.val 0 0x00) 1 0x14) 2 d.val =
        0x00 :: 0x14 :: d.val := blit_poke_poke_head _ _ _ _ (by rw [junk.redeem_script.2, d.2])
    simp only [hs]
    cases hd₂ : env.wally_hash160 (0x00 :: 0x14 :: d.val) 22 HASH160_LEN with
    | none => rfl
    | some d₂ =>
      have hb : blit (poke junk.address.val 0 ⟨version.val, hv⟩) 1 d₂.val =
          ⟨version.val, hv⟩ :: d₂.val := blit_poke_head _ _ _ (by rw [junk.address.2, d₂.2])
      simp only [hb]

/-- C14 (implicit): path selection is by equality with `WALLY_ADDRESS_TYPE_P2PKH`, not by bit
test. For every call of `wally_bip32_key_to_address` with key and output present that passes
argument validation (version and flags within 0..255, one of the two type bits set, none of the
four deny-list combinations) with flags different from exactly 0x01, whether or not the P2PKH
bit is set in flags, and with both hash160 calls succeeding (d on the public key, d₂ on the
redeem script `[0x00, 0x14] ++ d`), the payload handed to the Base58 encoder is the
P2SH-wrapped one, `[version] ++ d₂`, and the call returns the encoder's result on it. -/
theorem path_selected_by_equality_with_p2pkh (env : Collaborators) (junk : AddressLocals)
    (key : ext_key) (flags version : uint32_t) (prev : Option String) (d d₂ : Buf HASH160_LEN)
    (hv : version.val < 256) (hf : flags.val < 256)
    (ht : flags &&& (WALLY_ADDRESS_TYPE_P2PKH ||| WALLY_ADDRESS_TYPE_P2SH_P2WPKH) ≠ 0)
    (hm : ¬((flags &&& WALLY_ADDRESS_TYPE_P2PKH ≠ 0 ∧
              version = WALLY_ADDRESS_VERSION_P2SH_MAINNET) ∨
            (flags &&& WALLY_ADDRESS_TYPE_P2SH_P2WPKH ≠ 0 ∧
              version = WALLY_ADDRESS_VERSION_P2PKH_MAINNET) ∨
            (flags &&& WALLY_ADDRESS_TYPE_P2PKH ≠ 0 ∧
              version = WALLY_ADDRESS_VERSION_P2SH_TESTNET) ∨
            (flags &&& WALLY_ADDRESS_TYPE_P2SH_P2WPKH ≠ 0 ∧
              version = WALLY_ADDRESS_VERSION_P2PKH_TESTNET)))
    (hne : flags ≠ WALLY_ADDRESS_TYPE_P2PKH)
    (hd : env.wally_hash160 key.pub_key.val 33 HASH160_LEN = some d)
    (hd₂ : env.wally_hash160 (0x00 :: 0x14 :: d.val) 22 HASH160_LEN = some d₂) :
    (wally_bip32_key_to_address env junk (some key) flags version (some prev)).calls =
      [Call.hash160 key.pub_key.val 33 HASH160_LEN,
        Call.hash160 (0x00 :: 0x14 :: d.val) 22 HASH160_LEN,
        Call.base58_from_bytes (⟨version.val, hv⟩ :: d₂.val) 21 BASE58_FLAG_CHECKSUM,
        Call.clear 21] ∧
    (wally_bip32_key_to_address env junk (some key) flags version (some prev)).ret =
      (env.wally_base58_from_bytes (⟨version.val, hv⟩ :: d₂.val) 21 BASE58_FLAG_CHECKSUM
        (some none)).1 ∧
    (wally_bip32_key_to_address env junk (some key) flags version (some prev)).output =
      some (env.wally_base58_from_bytes (⟨version.val, hv⟩ :: d₂.val) 21 BASE58_FLAG_CHECKSUM
        (some none)).2 := by
  have run := wrapped_run env junk key flags version prev hv ((range_check_iff flags).2 hf)
    ht hm hne
  rw [hd] at run
  simp only [hd₂] at run
  rw [run]
  exact ⟨rfl, rfl, rfl⟩

/-- C14 at the two inputs the claim names, both with the P2PKH bit set: flags 0x09 with version
0x00, and flags 0x03 with version 0x10. -/
theorem path_selected_by_equality_with_p2pkh_witness :
    (wally_bip32_key_to_address sampleEnv sampleLocals (some sampleKey) 0x09 0x00
      (some none)).calls =
      [Call.hash160 sampleKey.pub_key.val 33 HASH160_LEN,
        Call.hash160 (0x00 :: 0x14 :: List.replicate 20 0x22) 22 HASH160_LEN,
        Call.base58_from_bytes (0x00 :: List.replicate 20 0xBC) 21 BASE58_FLAG_CHECKSUM,
        Call.clear 21] ∧
    (wally_bip32_key_to_address sampleEnv sampleLocals (some sampleKey) 0x03 0x10
      (some none)).calls =
      [Call.hash160 sampleKey.pub_key.val 33 HASH160_LEN,
        Call.hash160 (0x00 :: 0x14 :: List.replicate 20 0x22) 22 HASH160_LEN,
        Call.base58_from_bytes (0x10 :: List.replicate 20 0xBC) 21 BASE58_FLAG_CHECKSUM,
        Call.clear 21] :=
  ⟨(path_selected_by_equality_with_p2pkh sampleEnv sampleLocals sampleKey 0x09 0x00 none
      ⟨List.replicate 20 0x22, by decide⟩ ⟨List.replicate 20 0xBC, by decide⟩ (by decide)
      (by decide) (by decide) (by decide) (by decide) (by decide) (by decide)).1,
    (path_selected_by_equality_with_p2pkh sampleEnv sampleLocals sampleKey 0x03 0x10 none
      ⟨List.replicate 20 0x22, by decide⟩ ⟨List.replicate 20 0xBC, by decide⟩ (by decide)
      (by decide) (by decide) (by decide) (by decide) (by decide) (by decide)).1⟩

/-- C15 (implicit): wrapped and native segwit derivation agree on the witness program. For
every extended key whose public key hash160 accepts, the 22 bytes that
`wally_bip32_key_to_addr_segwit` hands to `wally_addr_segwit_from_bytes` are the redeem script
that `wally_bip32_key_to_address` builds and hashes in P2SH-P2WPKH mode (version v in 0..255
other than 0x00 and 0x6F), so that whenever that second hash succeeds with digest d₂ the
payload encoded for version v is `[v] ++ d₂`, the hash160 of the native witness program. -/
theorem wrapped_and_native_share_witness_program (env : Collaborators) (junk : AddressLocals)
    (junk' : Buf (HASH160_LEN + 2)) (key : ext_key) (version : uint32_t)
    (prev : Option String) (addr_family : String) (segwit_flags : uint32_t)
    (segwit_output : OutPtr) (d : Buf HASH160_LEN)
    (hv : version.val < 256) (h₁ : version ≠ 0x00) (h₂ : version ≠ 0x6F)
    (hd : env.wally_hash160 key.pub_key.val 33 HASH160_LEN = some d) :
    ∃ r wp,
      wally_bip32_key_to_addr_segwit env junk' (some key) addr_family segwit_flags
        segwit_output = .ok r ∧
      wp.length = 22 ∧
      r.calls = [Call.hash160 key.pub_key.val 33 HASH160_LEN,
        Call.addr_segwit_from_bytes wp 22 addr_family segwit_flags] ∧
      (wally_bip32_key_to_address env junk (some key) WALLY_ADDRESS_TYPE_P2SH_P2WPKH version
        (some prev)).redeem_script = some wp ∧
      Call.hash160 wp 22 HASH160_LEN ∈
        (wally_bip32_key_to_address env junk (some key) WALLY_ADDRESS_TYPE_P2SH_P2WPKH version
          (some prev)).calls ∧
      ∀ d₂, env.wally_hash160 wp 22 HASH160_LEN = some d₂ →
        Call.base58_from_bytes (⟨version.val, hv⟩ :: d₂.val) 21 BASE58_FLAG_CHECKSUM ∈
          (wally_bip32_key_to_address env junk (some key) WALLY_ADDRESS_TYPE_P2SH_P2WPKH
            version (some prev)).calls := by
  have run := p2sh_p2wpkh_run env junk key version prev hv h₁ h₂
  rw [hd] at run
  have srun := segwit_run env junk' key addr_family segwit_flags segwit_output
  rw [hd] at srun
  cases hd₂ : env.wally_hash160 (0x00 :: 0x14 :: d.val) 22 HASH160_LEN with
  | none =>
    simp only [hd₂] at run
    refine ⟨_, 0x00 :: 0x14 :: d.val, srun, by simp only [List.length_cons, d.2], rfl, ?_, ?_,
      ?_⟩
    · rw [run]
    · rw [run]
      simp
    · intro d₂ h
      rw [hd₂] at h
      cases h
  | some d₂ =>
    simp only [hd₂] at run
    refine ⟨_, 0x00 :: 0x14 :: d.val, srun, by simp only [List.length_cons, d.2], rfl, ?_, ?_,
      ?_⟩
    · rw [run]
    · rw [run]
      simp
    · intro d₃ h
      rw [hd₂] at h
      cases h
      rw [run]
      simp

/-- C15 at a concrete input: the native call for family "bc" and the wrapped call for version
0x05 on the same key. -/
theorem wrapped_and_native_share_witness_program_witness :
    ∃ r wp,
      wally_bip32_key_to_addr_segwit sampleEnv (zeros _) (some sampleKey) "bc" 0 (some none) =
        .ok r ∧
      r.calls = [Call.hash160 sampleKey.pub_key.val 33 HASH160_LEN,
        Call.addr_segwit_from_bytes wp 22 "bc" 0] ∧
      (wally_bip32_key_to_address sampleEnv sampleLocals (some sampleKey)
        WALLY_ADDRESS_TYPE_P2SH_P2WPKH 0x05 (some none)).redeem_script = some wp :=
  have h := wrapped_and_native_share_witness_program sampleEnv sampleLocals (zeros _) sampleKey
    0x05 none "bc" 0 (some none) ⟨List.replicate 20 0x22, by decide⟩ (by decide) (by decide)
    (by decide) (by decide)
  h.elim fun r hr => hr.elim fun wp hw => ⟨r, wp, hw.1, hw.2.2.1, hw.2.2.2.1⟩

/-- Conversion to `unsigned char` keeps a version that fits in one byte. -/
theorem byte_of_version (v : uint32_t) (hv : v.val < 256) : Byte.ofNat v.val = ⟨v.val, hv⟩ :=
  Fin.ext (Nat.mod_eq_of_lt hv)

/-- A P2PKH request whose version is out of range or on the deny-list stops at the argument
checks. -/
theorem p2pkh_invalid_version_rejected (env : Collaborators) (junk : AddressLocals)
    (key : ext_key) (version : uint32_t) (prev : Option String)
    (hc : ¬(version.val ≤ 0xff ∧ version ≠ 0x05 ∧ version ≠ 0xC4)) :
    wally_bip32_key_to_address env junk (some key) WALLY_ADDRESS_TYPE_P2PKH version (some prev) =
      ⟨WALLY_EINVAL, some none, junk.address.val, none, []⟩ := by
  obtain ⟨_, _, f₃, _⟩ := p2pkh_flag_checks
  have hrej : version &&& uint32_t.not 0xff ≠ 0 ∨
      version = WALLY_ADDRESS_VERSION_P2SH_MAINNET ∨
      version = WALLY_ADDRESS_VERSION_P2SH_TESTNET := by
    by_cases hv : version.val ≤ 0xff
    · by_cases h₁ : version = 0x05
      · exact Or.inr (Or.inl h₁)
      · by_cases h₂ : version = 0xC4
        · exact Or.inr (Or.inr h₂)
        · exact absurd ⟨hv, h₁, h₂⟩ hc
    · exact Or.inl ((range_check_fails_iff version).2 (by omega))
  rw [args_rejected env junk (some key) WALLY_ADDRESS_TYPE_P2PKH version (some prev)
    (by
      rcases hrej with h | h | h
      · exact Or.inr (Or.inl h)
      · exact Or.inr (Or.inr (Or.inr (Or.inr (Or.inr (Or.inl ⟨f₃, h⟩)))))
      · exact Or.inr (Or.inr (Or.inr (Or.inr (Or.inr (Or.inr (Or.inr (Or.inl ⟨f₃, h⟩))))))))]
  rfl

/-- A P2SH-P2WPKH request whose version is out of range or on the deny-list stops at the
argument checks. -/
theorem p2sh_p2wpkh_invalid_version_rejected (env : Collaborators) (junk : AddressLocals)
    (key : ext_key) (version : uint32_t) (prev : Option String)
    (hc : ¬(version.val ≤ 0xff ∧ version ≠ 0x00 ∧ version ≠ 0x6F)) :
    wally_bip32_key_to_address env junk (some key) WALLY_ADDRESS_TYPE_P2SH_P2WPKH version
        (some prev) =
      ⟨WALLY_EINVAL, some none, junk.address.val, none, []⟩ := by
  obtain ⟨_, _, _, g₄, _⟩ := p2sh_p2wpkh_flag_checks
  have hrej : version &&& uint32_t.not 0xff ≠ 0 ∨
      version = WALLY_ADDRESS_VERSION_P2PKH_MAINNET ∨
      version = WALLY_ADDRESS_VERSION_P2PKH_TESTNET := by
    by_cases hv : version.val ≤ 0xff
    · by_cases h₁ : version = 0x00
      · exact Or.inr (Or.inl h₁)
      · by_cases h₂ : version = 0x6F
        · exact Or.inr (Or.inr h₂)
        · exact absurd ⟨hv, h₁, h₂⟩ hc
    · exact Or.inl ((range_check_fails_iff version).2 (by omega))
  rw [args_rejected env junk (some key) WALLY_ADDRESS_TYPE_P2SH_P2WPKH version (some prev)
    (by
      rcases hrej with h | h | h
      · exact Or.inr (Or.inl h)
      · exact Or.inr (Or.inr (Or.inr (Or.inr (Or.inr (Or.inr (Or.inl ⟨g₄, h⟩))))))
      · exact Or.inr (Or.inr (Or.inr (Or.inr (Or.inr (Or.inr (Or.inr (Or.inr ⟨g₄, h⟩))))))))]
  rfl

/-- C12: the version/type cross-check is only the four-entry deny-list, so arbitrary custom
version bytes are accepted. With key and output present, `wally_bip32_key_to_address` with
flags = `WALLY_ADDRESS_TYPE_P2PKH` passes argument validation if and only if version is in
0..255 and is neither 0x05 nor 0xC4, and with flags = `WALLY_ADDRESS_TYPE_P2SH_P2WPKH` if and
only if version is in 0..255 and is neither 0x00 nor 0x6F. Passing means reaching hashing and
encoding: hash160 on the public key is the first call exactly for those versions; for each of
them, once hash160 succeeds, the call goes on to the Base58 encoder with the payload that
starts with the version itself and returns the encoder's code and string; for every other
version the call returns `WALLY_EINVAL` with `*output` null and nothing called. -/
theorem version_cross_check_is_deny_list (env : Collaborators) (junk : AddressLocals)
    (key : ext_key) (version : uint32_t) (prev : Option String) :
    (((wally_bip32_key_to_address env junk (some key) WALLY_ADDRESS_TYPE_P2PKH version
          (some prev)).calls.head? = some (Call.hash160 key.pub_key.val 33 HASH160_LEN) ↔
        version.val ≤ 0xff ∧ version ≠ 0x05 ∧ version ≠ 0xC4) ∧
      (version.val ≤ 0xff ∧ version ≠ 0x05 ∧ version ≠ 0xC4 →
        ∀ d, env.wally_hash160 key.pub_key.val 33 HASH160_LEN = some d →
          (Byte.ofNat version.val).val = version.val ∧
          (wally_bip32_key_to_address env junk (some key) WALLY_ADDRESS_TYPE_P2PKH version
            (some prev)).calls =
            [Call.hash160 key.pub_key.val 33 HASH160_LEN,
              Call.base58_from_bytes (Byte.ofNat version.val :: d.val) 21 BASE58_FLAG_CHECKSUM,
              Call.clear 21] ∧
          (wally_bip32_key_to_address env junk (some key) WALLY_ADDRESS_TYPE_P2PKH version
            (some prev)).ret =
            (env.wally_base58_from_bytes (Byte.ofNat version.val :: d.val) 21
              BASE58_FLAG_CHECKSUM (some none)).1 ∧
          (wally_bip32_key_to_address env junk (some key) WALLY_ADDRESS_TYPE_P2PKH version
            (some prev)).output =
            some (env.wally_base58_from_bytes (Byte.ofNat version.val :: d.val) 21
              BASE58_FLAG_CHECKSUM (some none)).2) ∧
      (¬(version.val ≤ 0xff ∧ version ≠ 0x05 ∧ version ≠ 0xC4) →
        (wally_bip32_key_to_address env junk (some key) WALLY_ADDRESS_TYPE_P2PKH version
          (some prev)).ret = WALLY_EINVAL ∧
        (wally_bip32_key_to_address env junk (some key) WALLY_ADDRESS_TYPE_P2PKH version
          (some prev)).output = some none ∧
        (wally_bip32_key_to_address env junk (some key) WALLY_ADDRESS_TYPE_P2PKH version
          (some prev)).calls = [])) ∧
    (((wally_bip32_key_to_address env junk (some key) WALLY_ADDRESS_TYPE_P2SH_P2WPKH version
          (some prev)).calls.head? = some (Call.hash160 key.pub_key.val 33 HASH160_LEN) ↔
        version.val ≤ 0xff ∧ version ≠ 0x00 ∧ version ≠ 0x6F) ∧
      (version.val ≤ 0xff ∧ version ≠ 0x00 ∧ version ≠ 0x6F →
        ∀ d d₂, env.wally_hash160 key.pub_key.val 33 HASH160_LEN = some d →
          env.wally_hash160 (0x00 :: 0x14 :: d.val) 22 HASH160_LEN = some d₂ →
          (Byte.ofNat version.val).val = version.val ∧
          (wally_bip32_key_to_address env junk (some key) WALLY_ADDRESS_TYPE_P2SH_P2WPKH
            version (some prev)).calls =
            [Call.hash160 key.pub_key.val 33 HASH160_LEN,
              Call.hash160 (0x00 :: 0x14 :: d.val) 22 HASH160_LEN,
              Call.base58_from_bytes (Byte.ofNat version.val :: d₂.val) 21
                BASE58_FLAG_CHECKSUM,
              Call.clear 21] ∧
          (wally_bip32_key_to_address env junk (some key) WALLY_ADDRESS_TYPE_P2SH_P2WPKH
            version (some prev)).ret =
            (env.wally_base58_from_bytes (Byte.ofNat version.val :: d₂.val) 21
              BASE58_FLAG_CHECKSUM (some none)).1 ∧
          (wally_bip32_key_to_address env junk (some key) WALLY_ADDRESS_TYPE_P2SH_P2WPKH
            version (some prev)).output =
            some (env.wally_base58_from_bytes (Byte.ofNat version.val :: d₂.val) 21
              BASE58_FLAG_CHECKSUM (some none)).2) ∧
      (¬(version.val ≤ 0xff ∧ version ≠ 0x00 ∧ version ≠ 0x6F) →
        (wally_bip32_key_to_address env junk (some key) WALLY_ADDRESS_TYPE_P2SH_P2WPKH version
          (some prev)).ret = WALLY_EINVAL ∧
        (wally_bip32_key_to_address env junk (some key) WALLY_ADDRESS_TYPE_P2SH_P2WPKH version
          (some prev)).output = some none ∧
        (wally_bip32_key_to_address env junk (some key) WALLY_ADDRESS_TYPE_P2SH_P2WPKH version
          (some prev)).calls = [])) := by
  refine ⟨⟨⟨fun h => ?_, fun h => ?_⟩, fun h d hd => ?_, fun hc => ?_⟩,
    ⟨⟨fun h => ?_, fun h => ?_⟩, fun h d d₂ hd hd₂ => ?_, fun hc => ?_⟩⟩
  · by_contra hc
    rw [p2pkh_invalid_version_rejected env junk key version prev hc] at h
    simp at h
  · rw [p2pkh_run env junk key version prev (by omega) h.2.1 h.2.2]
    cases env.wally_hash160 key.pub_key.val 33 HASH160_LEN <;> rfl
  · have hv : version.val < 256 := by omega
    have run := p2pkh_run env junk key version prev hv h.2.1 h.2.2
    rw [hd] at run
    rw [run, byte_of_version version hv]
    exact ⟨rfl, rfl, rfl, rfl⟩
  · rw [p2pkh_invalid_version_rejected env junk key version prev hc]
    exact ⟨rfl, rfl, rfl⟩
  · by_contra hc
    rw [p2sh_p2wpkh_invalid_version_rejected env junk key version prev hc] at h
    simp at h
  · rw [p2sh_p2wpkh_run env junk key version prev (by omega) h.2.1 h.2.2]
    cases env.wally_hash160 key.pub_key.val 33 HASH160_LEN with
    | none => rfl
    | some d =>
      simp only []
      cases env.wally_hash160 (0x00 :: 0x14 :: d.val) 22 HASH160_LEN <;> rfl
  · have hv : version.val < 256 := by omega
    have run := p2sh_p2wpkh_run env junk key version prev hv h.2.1 h.2.2
    rw [hd] at run
    simp only [hd₂] at run
    rw [run, byte_of_version version hv]
    exact ⟨rfl, rfl, rfl, rfl⟩
  · rw [p2sh_p2wpkh_invalid_version_rejected env junk key version prev hc]
    exact ⟨rfl, rfl, rfl⟩

/-- C12 at concrete inputs: the custom version 0x10, on no list of known versions, is accepted
for both types and reaches the encoder, while the deny-list versions 0x05 (P2PKH) and 0x00
(P2SH-P2WPKH) are rejected. -/
theorem version_cross_check_is_deny_list_witness :
    ((wally_bip32_key_to_address sampleEnv sampleLocals (some sampleKey)
        WALLY_ADDRESS_TYPE_P2PKH 0x10 (some none)).calls =
        [Call.hash160 sampleKey.pub_key.val 33 HASH160_LEN,
          Call.base58_from_bytes (0x10 :: List.replicate 20 0x22) 21 BASE58_FLAG_CHECKSUM,
          Call.clear 21] ∧
      (wally_bip32_key_to_address sampleEnv sampleLocals (some sampleKey)
        WALLY_ADDRESS_TYPE_P2SH_P2WPKH 0x10 (some none)).calls =
        [Call.hash160 sampleKey.pub_key.val 33 HASH160_LEN,
          Call.hash160 (0x00 :: 0x14 :: List.replicate 20 0x22) 22 HASH160_LEN,
          Call.base58_from_bytes (0x10 :: List.replicate 20 0xBC) 21 BASE58_FLAG_CHECKSUM,
          Call.clear 21]) ∧
    ((wally_bip32_key_to_address sampleEnv sampleLocals (some sampleKey)
        WALLY_ADDRESS_TYPE_P2PKH 0x05 (some none)).ret = WALLY_EINVAL ∧
      (wally_bip32_key_to_address sampleEnv sampleLocals (some sampleKey)
        WALLY_ADDRESS_TYPE_P2SH_P2WPKH 0x00 (some none)).ret = WALLY_EINVAL) :=
  ⟨⟨((version_cross_check_is_deny_list sampleEnv sampleLocals sampleKey 0x10 none).1.2.1
        (by decide) ⟨List.replicate 20 0x22, by decide⟩ (by decide)).2.1,
      ((version_cross_check_is_deny_list sampleEnv sampleLocals sampleKey 0x10 none).2.2.1
        (by decide) ⟨List.replicate 20 0x22, by decide⟩ ⟨List.replicate 20 0xBC, by decide⟩
        (by decide) (by decide)).2.1⟩,
    ((version_cross_check_is_deny_list sampleEnv sampleLocals sampleKey 0x05 none).1.2.2
        (by decide)).1,
    ((version_cross_check_is_deny_list sampleEnv sampleLocals sampleKey 0x00 none).2.2.2
        (by decide)).1⟩

/-- Whatever is handed to the Base58 encoder starts with a byte whose value is the version
argument. -/
theorem encoder_payload_head (env : Collaborators) (junk : AddressLocals)
    (hdkey : Option ext_key) (flags version : uint32_t) (output : OutPtr) (bytes : List Byte)
    (len : Nat) (fl : uint32_t)
    (hmem : Call.base58_from_bytes bytes len fl ∈
      (wally_bip32_key_to_address env junk hdkey flags version output).calls) :
    ∃ b : Byte, bytes.head? = some b ∧ b.val = version.val := by
  by_cases hrej : hdkey = none ∨ version &&& uint32_t.not 0xff ≠ 0 ∨
      flags &&& uint32_t.not 0xff ≠ 0 ∨ output = none ∨
      flags &&& (WALLY_ADDRESS_TYPE_P2PKH ||| WALLY_ADDRESS_TYPE_P2SH_P2WPKH) = 0 ∨
      (flags &&& WALLY_ADDRESS_TYPE_P2PKH ≠ 0 ∧ version = WALLY_ADDRESS_VERSION_P2SH_MAINNET) ∨
      (flags &&& WALLY_ADDRESS_TYPE_P2SH_P2WPKH ≠ 0 ∧
        version = WALLY_ADDRESS_VERSION_P2PKH_MAINNET) ∨
      (flags &&& WALLY_ADDRESS_TYPE_P2PKH ≠ 0 ∧ version = WALLY_ADDRESS_VERSION_P2SH_TESTNET) ∨
      (flags &&& WALLY_ADDRESS_TYPE_P2SH_P2WPKH ≠ 0 ∧
        version = WALLY_ADDRESS_VERSION_P2PKH_TESTNET)
  · rw [args_rejected env junk hdkey flags version output hrej] at hmem
    simp at hmem
  · have hk : hdkey ≠ none := fun h => hrej (Or.inl h)
    have hvr : version &&& uint32_t.not 0xff = 0 :=
      by_contra fun h => hrej (Or.inr (Or.inl h))
    have hfr : flags &&& uint32_t.not 0xff = 0 :=
      by_contra fun h => hrej (Or.inr (Or.inr (Or.inl h)))
    have ho : output ≠ none := fun h => hrej (Or.inr (Or.inr (Or.inr (Or.inl h))))
    have ht : flags &&& (WALLY_ADDRESS_TYPE_P2PKH ||| WALLY_ADDRESS_TYPE_P2SH_P2WPKH) ≠ 0 :=
      fun h => hrej (Or.inr (Or.inr (Or.inr (Or.inr (Or.inl h)))))
    have hm := fun h => hrej (Or.inr (Or.inr (Or.inr (Or.inr (Or.inr h)))))
    have hv : version.val < 256 := (range_check_iff version).1 hvr
    obtain ⟨key, rfl⟩ := Option.ne_none_iff_exists'.1 hk
    obtain ⟨prev, rfl⟩ := Option.ne_none_iff_exists'.1 ho
    by_cases hp : flags = WALLY_ADDRESS_TYPE_P2PKH
    · subst hp
      obtain ⟨_, _, f₃, _⟩ := p2pkh_flag_checks
      rw [p2pkh_run env junk key version prev hv (fun h => hm (Or.inl ⟨f₃, h⟩))
        (fun h => hm (Or.inr (Or.inr (Or.inl ⟨f₃, h⟩))))] at hmem
      split at hmem
      · simp at hmem
      · simp at hmem
        obtain ⟨rfl, -, -⟩ := hmem
        exact ⟨_, rfl, rfl⟩
    · rw [wrapped_run env junk key flags version prev hv hfr ht hm hp] at hmem
      split at hmem
      · simp at hmem
      · split at hmem
        · simp at hmem
        · simp at hmem
          obtain ⟨rfl, -, -⟩ := hmem
          exact ⟨_, rfl, rfl⟩

/-- C13 (implicit): the version must fit in one byte and is never truncated. For every extended
key and every flags value, `wally_bip32_key_to_address` returns `WALLY_EINVAL` (with no
address, nothing called) whenever version is greater than 0xFF; so whatever payload reaches the
Base58 encoder has the version argument itself as first byte, and every call that returns
`WALLY_OK` has encoded such a payload. -/
theorem version_fits_one_byte (env : Collaborators) (junk : AddressLocals)
    (hdkey : Option ext_key) (flags version : uint32_t) (output : OutPtr) :
    (0xff < version.val →
      (wally_bip32_key_to_address env junk hdkey flags version output).ret = WALLY_EINVAL ∧
      (wally_bip32_key_to_address env junk hdkey flags version output).output =
        output.map (fun _ => none) ∧
      (wally_bip32_key_to_address env junk hdkey flags version output).calls = []) ∧
    (∀ bytes len fl, Call.base58_from_bytes bytes len fl ∈
        (wally_bip32_key_to_address env junk hdkey flags version output).calls →
      ∃ b : Byte, bytes.head? = some b ∧ b.val = version.val) ∧
    ((wally_bip32_key_to_address env junk hdkey flags version output).ret = WALLY_OK →
      ∃ payload, ∃ b : Byte, Call.base58_from_bytes payload 21 BASE58_FLAG_CHECKSUM ∈
          (wally_bip32_key_to_address env junk hdkey flags version output).calls ∧
        payload.head? = some b ∧ b.val = version.val) := by
  have hne : WALLY_EINVAL ≠ WALLY_OK := by decide
  refine ⟨fun h => ?_, fun bytes len fl hmem => ?_, fun hok => ?_⟩
  · rw [args_rejected env junk hdkey flags version output
      (Or.inr (Or.inl ((range_check_fails_iff version).2 h)))]
    exact ⟨rfl, rfl, rfl⟩
  · exact encoder_payload_head env junk hdkey flags version output bytes len fl hmem
  · cases output with
    | none =>
      rw [args_rejected env junk hdkey flags version none
        (Or.inr (Or.inr (Or.inr (Or.inl rfl))))] at hok
      exact absurd hok hne
    | some prev =>
      rcases return_cases env junk hdkey flags version prev with ⟨h, _, _⟩ | ⟨payload, _, _, h⟩
      · rw [h] at hok
        exact absurd hok hne
      · obtain ⟨b, hb⟩ := encoder_payload_head env junk hdkey flags version (some prev) payload
          21 BASE58_FLAG_CHECKSUM h
        exact ⟨payload, b, h, hb⟩

/-- C13 at concrete inputs: version 0x100 is rejected, and the successful call with version
0x6F has encoded a payload that starts with 0x6F. -/
theorem version_fits_one_byte_witness :
    (wally_bip32_key_to_address sampleEnv sampleLocals (some sampleKey) WALLY_ADDRESS_TYPE_P2PKH
      0x100 (some none)).ret = WALLY_EINVAL ∧
    ∃ payload, ∃ b : Byte, Call.base58_from_bytes payload 21 BASE58_FLAG_CHECKSUM ∈
        (wally_bip32_key_to_address sampleEnv sampleLocals (some sampleKey)
          WALLY_ADDRESS_TYPE_P2PKH 0x6F (some none)).calls ∧
      payload.head? = some b ∧ b.val = 0x6F :=
  ⟨((version_fits_one_byte sampleEnv sampleLocals (some sampleKey) WALLY_ADDRESS_TYPE_P2PKH
      0x100 (some none)).1 (by decide)).1,
    (version_fits_one_byte sampleEnv sampleLocals (some sampleKey) WALLY_ADDRESS_TYPE_P2PKH
      0x6F (some none)).2.2 (by decide)⟩

/-- The first two bytes of a buffer of at least two bytes after `buf[0] = b` and `buf[1] = c`. -/
theorem take_two_poke_poke (a : List Byte) (b c : Byte) (ha : 2 ≤ a.length) :
    (poke (poke a 0 b) 1 c).take 2 = [b, c] := by
  match a, ha with
  | x :: y :: t, _ => simp [poke]

/-- C11, what the code does: the local buffers are not cleared on every exit path.
`wally_clear` is called once, on `address`, after the encoder. The redeem script is never
cleared: on every return of a P2SH-P2WPKH call that passed validation (here version 0x05) it
still starts with the bytes 0x00, 0x14, and on the successful sample call it holds the whole
preimage while `address` is zeroed. A hash160 failure returns before `wally_clear`: `address`
still starts with the version byte. The witness program of `wally_bip32_key_to_addr_segwit`
is never cleared either. -/
theorem local_buffers_left_uncleared :
    (∀ (env : Collaborators) (junk : AddressLocals) (key : ext_key) (prev : Option String),
      (wally_bip32_key_to_address env junk (some key) WALLY_ADDRESS_TYPE_P2SH_P2WPKH 0x05
        (some prev)).redeem_script.map (List.take 2) = some [0x00, 0x14]) ∧
    ((wally_bip32_key_to_address sampleEnv sampleLocals (some sampleKey)
        WALLY_ADDRESS_TYPE_P2SH_P2WPKH 0x05 (some none)).ret = WALLY_OK ∧
      (wally_bip32_key_to_address sampleEnv sampleLocals (some sampleKey)
        WALLY_ADDRESS_TYPE_P2SH_P2WPKH 0x05 (some none)).address = List.replicate 21 0x00 ∧
      (wally_bip32_key_to_address sampleEnv sampleLocals (some sampleKey)
        WALLY_ADDRESS_TYPE_P2SH_P2WPKH 0x05 (some none)).redeem_script =
        some (0x00 :: 0x14 :: List.replicate 20 0x22)) ∧
    (∀ (junk : AddressLocals) (key : ext_key) (prev : Option String),
      (wally_bip32_key_to_address hashFailEnv junk (some key) WALLY_ADDRESS_TYPE_P2PKH 0x6F
        (some prev)).ret = WALLY_EINVAL ∧
      (wally_bip32_key_to_address hashFailEnv junk (some key) WALLY_ADDRESS_TYPE_P2PKH 0x6F
        (some prev)).address.head? = some 0x6F ∧
      (wally_bip32_key_to_address hashFailEnv junk (some key) WALLY_ADDRESS_TYPE_P2PKH 0x6F
        (some prev)).calls = [Call.hash160 key.pub_key.val 33 HASH160_LEN]) ∧
    (∀ (env : Collaborators) (junk : Buf (HASH160_LEN + 2)) (key : ext_key)
        (addr_family : String) (flags : uint32_t) (output : OutPtr),
      ∃ r, wally_bip32_key_to_addr_segwit env junk (some key) addr_family flags output = .ok r ∧
        r.witness_program_bytes.take 2 = [0x00, 0x14]) := by
  refine ⟨fun env junk key prev => ?_, by decide, fun junk key prev => ?_,
    fun env junk key addr_family flags output => ?_⟩
  · rw [p2sh_p2wpkh_run env junk key 0x05 prev (by decide) (by decide) (by decide)]
    cases env.wally_hash160 key.pub_key.val 33 HASH160_LEN with
    | none =>
      simp only [Option.map_some']
      rw [take_two_poke_poke _ _ _ (by rw [junk.redeem_script.2]; decide)]
    | some d =>
      simp only []
      cases env.wally_hash160 (0x00 :: 0x14 :: d.val) 22 HASH160_LEN <;> rfl
  · rw [p2pkh_run hashFailEnv junk key 0x6F prev (by decide) (by decide) (by decide)]
    have hn : hashFailEnv.wally_hash160 key.pub_key.val 33 HASH160_LEN = none := rfl
    rw [hn]
    refine ⟨rfl, ?_, rfl⟩
    match hj : junk.address.val, junk.address.2 with
    | x :: t, _ => rfl
  · rw [segwit_run env junk key addr_family flags output]
    cases env.wally_hash160 key.pub_key.val 33 HASH160_LEN with
    | none => exact ⟨_, rfl, take_two_poke_poke _ _ _ (by rw [junk.2]; decide)⟩
    | some d => exact ⟨_, rfl, rfl⟩

end Wally
